import Mathlib

/-!
Verification of the LaunchDarkly/Strudel reactive bridge layer
(`website/src/repl/components/button/action-button.jsx`, flag-bridge section).

The development shallowly embeds the bridge code over a model of the
external Strudel pattern-engine interface (a pattern is a function from a
query span to a list of timed events, per the engine's documented
`query(window)` contract).  JavaScript dynamic values are modelled by the
inductive type `JSVal`; the process-wide flag store by an association list;
the per-call-site mutable caches by explicit state records threaded through
each query step.  External parsers (`mini` from the pattern mini-language,
`JSON.parse`, `parseFloat`) are parameters of the corresponding
definitions, since their code lives outside this repository.

Modelling notes (deliberate, claims never depend on them):
- JavaScript numbers are rationals plus a `nan` element; `ToNumber`
  coercion of strings/booleans inside arithmetic is collapsed to `nan`
  (the claims only exercise numeric arithmetic operands).
- Object destructuring of primitive values yields no named fields (the
  char-index enumeration of strings under rest-spread is not modelled).
- Division of a rational by zero is Lean's `0`; the claims only divide by
  the caller-supplied literal divisors `1` and `4`.
-/

/-- A JavaScript runtime value as it may appear in a LaunchDarkly flag:
boolean, number (with NaN), string, null, array, or JSON object. -/
inductive JSVal where
  | bool (b : Bool)
  | num (q : ℚ)
  | nan
  | str (s : String)
  | null
  | arr (xs : List JSVal)
  | obj (fields : List (String × JSVal))

/-- Fields of a JavaScript object, in insertion order. -/
abbrev ObjFields := List (String × JSVal)

/-- The process-wide flag store `flags`: a mapping from flag key to the
current raw value (modelled as an association list). -/
abbrev Flags := List (String × JSVal)

mutual

/-- JavaScript strict equality `===` on flag-store values (structural on
our model; reference identity of distinct-but-equal objects is not
distinguished — the code only compares strings and null this way). -/
def jsEqB : JSVal → JSVal → Bool
  | .bool a, .bool b => a == b
  | .num a, .num b => a == b
  | .nan, .nan => true
  | .str a, .str b => a == b
  | .null, .null => true
  | .arr xs, .arr ys => jsEqListB xs ys
  | .obj xs, .obj ys => jsEqObjB xs ys
  | _, _ => false

/-- Pointwise `jsEqB` on arrays. -/
def jsEqListB : List JSVal → List JSVal → Bool
  | [], [] => true
  | x :: xs, y :: ys => jsEqB x y && jsEqListB xs ys
  | _, _ => false

/-- Pointwise `jsEqB` on object field lists. -/
def jsEqObjB : List (String × JSVal) → List (String × JSVal) → Bool
  | [], [] => true
  | (k, v) :: xs, (k2, v2) :: ys => k == k2 && jsEqB v v2 && jsEqObjB xs ys
  | _, _ => false

end

/-- Property read `o[k]` on an object / the flag store: first binding wins
(JS objects have unique keys); `none` models `undefined`. -/
def getField : ObjFields → String → Option JSVal
  | [], _ => none
  | (k, v) :: rest, key => if k = key then some v else getField rest key

/-- `k in o` as a boolean (used for the truthiness of a change-record
lookup `settings[flagKey]`, which is an object hence truthy iff present). -/
def hasKeyB (o : ObjFields) (k : String) : Bool := (getField o k).isSome

/-- Property write `o[k] = v` / object-literal field assignment: the key's
previous binding is dropped and the new one appended. -/
def setField (o : ObjFields) (k : String) (v : JSVal) : ObjFields :=
  o.filter (fun p => !(p.1 == k)) ++ [(k, v)]

/-- Rest element of a destructuring `const {a, b, ...rest} = o`: all fields
whose key is not among the destructured ones. -/
def restFields (o : ObjFields) (ks : List String) : ObjFields :=
  o.filter (fun p => !(ks.contains p.1))

/-- Spread merge `{...a, ...b}`: fields of `b` override fields of `a`. -/
def mergeObj (a b : ObjFields) : ObjFields :=
  a.filter (fun p => !(hasKeyB b p.1)) ++ b

/-- Flag-store read `flags[key]`; `none` models `undefined` (key absent). -/
def readFlag (fl : Flags) (key : String) : Option JSVal := getField fl key

/-- The ubiquitous resolution step `flags[key] ?? defaultValue`: nullish
coalescing falls back on `undefined` (absent key) and on `null`. -/
def readOr (fl : Flags) (key : String) (d : JSVal) : JSVal :=
  match readFlag fl key with
  | none => d
  | some .null => d
  | some v => v

/-- Nullish coalescing `x ?? d` for an object-field access result. -/
def nullishField : Option JSVal → JSVal → JSVal
  | none, d => d
  | some .null, d => d
  | some v, _ => v

/-- Destructuring default `const {g = d} = o`: the default applies only
when the field is `undefined` (absent), not when it is `null`. -/
def destrDefault : Option JSVal → JSVal → JSVal
  | none, d => d
  | some v, _ => v

/-- JavaScript truthiness: `false`, `0`, `NaN`, the empty string and
`null` are falsy; arrays and objects are always truthy. -/
def truthy : JSVal → Bool
  | .bool b => b
  | .num q => decide (q ≠ 0)
  | .nan => false
  | .str s => decide (s ≠ "")
  | .null => false
  | .arr _ => true
  | .obj _ => true

/-- Numeric view of a value for arithmetic; non-numbers give `none`
(coercions of non-numeric operands are collapsed to NaN, see header). -/
def jsAsNum : JSVal → Option ℚ
  | .num q => some q
  | _ => none

/-- JavaScript multiplication as used in the gain merges. -/
def jsMul (a b : JSVal) : JSVal :=
  match jsAsNum a, jsAsNum b with
  | some x, some y => .num (x * y)
  | _, _ => .nan

/-- JavaScript division by a numeric literal divisor (tempo conversion). -/
def jsDivQ (a : JSVal) (d : ℚ) : JSVal :=
  match jsAsNum a with
  | some x => .num (x / d)
  | none => .nan

/-- A time span (query window) of the pattern engine, with rational
begin/end points. -/
structure Span where
  b : ℚ
  e : ℚ

/-- A timed event ("hap") of the pattern engine: an optional whole span,
the queried part, and a payload value. -/
structure Hap where
  whole : Option Span
  part : Span
  value : JSVal

/-- A pattern, per the engine's external contract: a function from a query
window to the list of events in that window. -/
abbrev Pattern := Span → List Hap

/-- Splits `[b, e)` at cycle (integer) boundaries; fuel-recursive version
of the engine's `TimeSpan.spanCycles`. -/
def spanCyclesAux : Nat → ℚ → ℚ → List Span
  | 0, _, _ => []
  | n + 1, b, e =>
    let nb : ℚ := (⌊b⌋ : ℚ) + 1
    if nb < e then ⟨b, nb⟩ :: spanCyclesAux n nb e
    else [⟨b, e⟩]

/-- The engine's `TimeSpan.spanCycles`: a degenerate span is returned
as-is, otherwise the span is cut at every integer boundary. -/
def spanCycles (sp : Span) : List Span :=
  if sp.b > sp.e then []
  else if sp.b = sp.e then [sp]
  else spanCyclesAux (⌈sp.e⌉ - ⌊sp.b⌋).toNat sp.b sp.e

/-- The engine's `pure(v)`: one event per cycle, whole spanning the cycle
of each part's begin, constant payload. -/
def purePat (v : JSVal) : Pattern :=
  fun sp =>
    (spanCycles sp).map
      (fun s => ⟨some ⟨(⌊s.b⌋ : ℚ), (⌊s.b⌋ : ℚ) + 1⟩, s, v⟩)

/-- The engine's `_fast(f)`: query the base pattern on the window scaled
up by `f` and scale the resulting event times back down. -/
def fastPat (f : ℚ) (p : Pattern) : Pattern :=
  fun sp =>
    (p ⟨sp.b * f, sp.e * f⟩).map
      (fun h =>
        ⟨h.whole.map (fun w => ⟨w.b / f, w.e / f⟩),
         ⟨h.part.b / f, h.part.e / f⟩, h.value⟩)

/-- The engine's `stack(...)`: simultaneous union, events concatenated in
argument order. -/
def stackPats (ps : List Pattern) : Pattern :=
  fun sp => ps.flatMap (fun p => p sp)

/-- The engine's `withHap` composed with `Hap.withValue`: map a function
over every produced event's payload. -/
def withHapValue (f : JSVal → JSVal) (p : Pattern) : Pattern :=
  fun sp => (p sp).map (fun h => ⟨h.whole, h.part, f h.value⟩)

/-- Query of an optional (possibly still-null) cached pattern. -/
def queryOpt : Option Pattern → Span → List Hap
  | some p, sp => p sp
  | none, _ => []

/-! ## Flag store initialization (`initLaunchDarkly`) -/

/-- Settlement state of the promise returned by `initLaunchDarkly`. -/
inductive PromiseState where
  | pending
  | resolvedP
  | rejectedP (err : String)

/-- Events delivered by the provider client to the three handlers
registered in `initLaunchDarkly`: `ready` (with the full snapshot from
`allFlags()`), `change` (with the per-key current values), `failed`. -/
inductive InitEvent where
  | ready (snapshot : Flags)
  | changed (settings : Flags)
  | failed (err : String)

/-- `resolve()` of an already-created promise: settles only if pending. -/
def settlePromiseOk : PromiseState → PromiseState
  | .pending => .resolvedP
  | s => s

/-- `reject(err)` of an already-created promise: settles only if pending. -/
def settlePromiseErr (err : String) : PromiseState → PromiseState
  | .pending => .rejectedP err
  | s => s

/-- The three `initLaunchDarkly` event handlers as one step function on
(flag store, promise state): `ready` bulk-merges the snapshot
(`Object.assign`) and resolves; `change` merges each delivered key's
current value; `failed` logs and rejects, touching nothing else. -/
def handleInitEvent (fl : Flags) (ps : PromiseState) : InitEvent → Flags × PromiseState
  | .ready snapshot => (mergeObj fl snapshot, settlePromiseOk ps)
  | .changed settings => (mergeObj fl settings, ps)
  | .failed err => (fl, settlePromiseErr err ps)

/-! ## Scalar bridge (`flag`) -/

/-- The mini-notation marker characters of the detection regex
`/[<>\x5b\x5d*!@,]/` in `hasMiniNotation`. -/
def miniChars : List Char := ['<', '>', '[', ']', '*', '!', '@', ',']

/-- String part of `hasMiniNotation`: does the string contain any
mini-notation marker character? -/
def hasMiniNotationStr (s : String) : Bool :=
  s.data.any (fun c => miniChars.contains c)

/-- `hasMiniNotation`: non-strings never count as mini-notation. -/
def hasMiniNotation : JSVal → Bool
  | .str s => hasMiniNotationStr s
  | _ => false

/-- The closed-over cache of one `flag(key, default)` call site: last
successfully parsed string and the pattern it parsed to.  (The source
initializes both to `null`; `cachedValue` is only ever assigned the string
being parsed, so an optional string captures exactly its reachable
values.) -/
structure FlagBridgeState where
  cachedValue : Option String
  cachedPattern : Option Pattern

/-- Fresh cache of a `flag` call site (`cachedValue = cachedPattern =
null`). -/
def initialFlagBridgeState : FlagBridgeState := ⟨none, none⟩

/-- The cache test `value !== cachedValue` (negated): true iff the cached
string exists and equals the current string. -/
def flagCacheHitB (st : FlagBridgeState) (s : String) : Bool :=
  match st.cachedValue with
  | some c => c == s
  | none => false

/-- One query of the pattern returned by `flag(key, defaultValue)`, with
the external mini-notation parser `mp` (`none` models a thrown parse
error).  Returns the produced events and the updated call-site cache. -/
def flagQuery (mp : String → Option Pattern) (key : String) (dflt : JSVal)
    (fl : Flags) (st : FlagBridgeState) (sp : Span) : List Hap × FlagBridgeState :=
  let value := readOr fl key dflt
  match value with
  | .str s =>
    if hasMiniNotationStr s then
      if flagCacheHitB st s then
        (queryOpt st.cachedPattern sp, st)
      else
        match mp s with
        | some p => (p sp, ⟨some s, some p⟩)
        | none => (purePat (.str s) sp, st)
    else (purePat (.str s) sp, st)
  | v => (purePat v sp, st)

/-- `flag` with the supplied default substituted directly for the flag
read (the spec's absence ⇒ default-equivalence reference behaviour). -/
def flagQuerySubst (mp : String → Option Pattern) (dflt : JSVal)
    (st : FlagBridgeState) (sp : Span) : List Hap × FlagBridgeState :=
  match dflt with
  | .str s =>
    if hasMiniNotationStr s then
      if flagCacheHitB st s then
        (queryOpt st.cachedPattern sp, st)
      else
        match mp s with
        | some p => (p sp, ⟨some s, some p⟩)
        | none => (purePat (.str s) sp, st)
    else (purePat (.str s) sp, st)
  | v => (purePat v sp, st)

/-! ## Polyphonic layering transform (`polySpeed`) -/

/-- Numeric coercion of a speed value handed to `_fast` (non-numeric
speeds are outside every claim; they are collapsed to `0`). -/
def jsToQ : JSVal → ℚ
  | .num q => q
  | _ => 0

/-- One query of `basePattern.polySpeed(flagKey, defaultValue)`: an array
value stacks one sped copy per element (empty array passes the base
through), any other value is applied as a single speed factor. -/
def polySpeedQuery (self : Pattern) (flagKey : String) (defaultValue : JSVal)
    (fl : Flags) (sp : Span) : List Hap :=
  let speeds := readOr fl flagKey defaultValue
  match speeds with
  | .arr l =>
    match l with
    | [] => self sp
    | _ => stackPats (l.map (fun s => fastPat (jsToQ s) self)) sp
  | v => fastPat (jsToQ v) self sp

/-- `polySpeed` with the supplied default substituted directly for the
flag read. -/
def polySpeedQuerySubst (self : Pattern) (defaultValue : JSVal) (sp : Span) : List Hap :=
  match defaultValue with
  | .arr l =>
    match l with
    | [] => self sp
    | _ => stackPats (l.map (fun s => fastPat (jsToQ s) self)) sp
  | v => fastPat (jsToQ v) self sp

/-! ## Parameter bundle merges (`drumKit`, `bassSound`, `leadSound`) -/

/-- Resolution of a bundle flag value: read with default, then, if the
value is a string, attempt a JSON decode (`jp`), keeping the raw string
on decode failure. -/
def resolveBundle (jp : String → Option JSVal) (fl : Flags) (key : String)
    (d : JSVal) : JSVal :=
  match readOr fl key d with
  | .str s =>
    match jp s with
    | some v => v
    | none => .str s
  | v => v

/-- Bundle resolution with the supplied default substituted directly for
the flag read. -/
def resolveBundleSubst (jp : String → Option JSVal) (d : JSVal) : JSVal :=
  match d with
  | .str s =>
    match jp s with
    | some v => v
    | none => .str s
  | v => v

/-- Fields visible to a destructuring of `parsedValue`; destructuring a
primitive yields no named fields (see header). -/
def objFields : JSVal → ObjFields
  | .obj l => l
  | _ => []

/-- The `drumKit` per-event payload transform:
`{...v, ...effects, bank, gain: (v.gain ?? 1) * gain}` with
`{bank = 'RolandTR808', gain = 1, ...effects}` destructured from the
parsed bundle. -/
def drumKitHapVal (pv : JSVal) (v : ObjFields) : ObjFields :=
  let o := objFields pv
  let bank := destrDefault (getField o "bank") (.str "RolandTR808")
  let gain := destrDefault (getField o "gain") (.num 1)
  let effects := restFields o ["bank", "gain"]
  setField (setField (mergeObj v effects) "bank" bank) "gain"
    (jsMul (nullishField (getField v "gain") (.num 1)) gain)

/-- The `bassSound` per-event payload transform: rest-spread, `s` forced
to the destructured sound (default `'gm_synth_bass_2'`), multiplicative
gain, and `lpf` written only when the bundle carries it. -/
def bassSoundHapVal (pv : JSVal) (v : ObjFields) : ObjFields :=
  let o := objFields pv
  let sound := destrDefault (getField o "sound") (.str "gm_synth_bass_2")
  let lpf := getField o "lpf"
  let gain := destrDefault (getField o "gain") (.num 1)
  let rest := restFields o ["sound", "lpf", "gain"]
  let base :=
    setField (setField (mergeObj v rest) "s" sound) "gain"
      (jsMul (nullishField (getField v "gain") (.num 1)) gain)
  match lpf with
  | some l => setField base "lpf" l
  | none => base

/-- The `leadSound` per-event payload transform: like `bassSound` with
default sound `'sawtooth'` and an additional optional `lpq` write. -/
def leadSoundHapVal (pv : JSVal) (v : ObjFields) : ObjFields :=
  let o := objFields pv
  let sound := destrDefault (getField o "sound") (.str "sawtooth")
  let lpf := getField o "lpf"
  let lpq := getField o "lpq"
  let gain := destrDefault (getField o "gain") (.num 1)
  let rest := restFields o ["sound", "lpf", "lpq", "gain"]
  let base :=
    setField (setField (mergeObj v rest) "s" sound) "gain"
      (jsMul (nullishField (getField v "gain") (.num 1)) gain)
  let withLpf :=
    match lpf with
    | some l => setField base "lpf" l
    | none => base
  match lpq with
  | some l => setField withLpf "lpq" l
  | none => withLpf

/-- One query of `basePattern.drumKit(flagKey, defaultValue)` (the flag is
read per produced event; the store is fixed during one synchronous
query). -/
def drumKitQuery (jp : String → Option JSVal) (self : Pattern) (flagKey : String)
    (defaultValue : JSVal) (fl : Flags) : Pattern :=
  withHapValue
    (fun v => .obj (drumKitHapVal (resolveBundle jp fl flagKey defaultValue) (objFields v)))
    self

/-- `drumKit` with the supplied default substituted directly for the flag
read. -/
def drumKitQuerySubst (jp : String → Option JSVal) (self : Pattern)
    (defaultValue : JSVal) : Pattern :=
  withHapValue
    (fun v => .obj (drumKitHapVal (resolveBundleSubst jp defaultValue) (objFields v)))
    self

/-- One query of `basePattern.bassSound(flagKey, defaultValue)`. -/
def bassSoundQuery (jp : String → Option JSVal) (self : Pattern) (flagKey : String)
    (defaultValue : JSVal) (fl : Flags) : Pattern :=
  withHapValue
    (fun v => .obj (bassSoundHapVal (resolveBundle jp fl flagKey defaultValue) (objFields v)))
    self

/-- `bassSound` with the supplied default substituted directly for the
flag read. -/
def bassSoundQuerySubst (jp : String → Option JSVal) (self : Pattern)
    (defaultValue : JSVal) : Pattern :=
  withHapValue
    (fun v => .obj (bassSoundHapVal (resolveBundleSubst jp defaultValue) (objFields v)))
    self

/-- One query of `basePattern.leadSound(flagKey, defaultValue)`. -/
def leadSoundQuery (jp : String → Option JSVal) (self : Pattern) (flagKey : String)
    (defaultValue : JSVal) (fl : Flags) : Pattern :=
  withHapValue
    (fun v => .obj (leadSoundHapVal (resolveBundle jp fl flagKey defaultValue) (objFields v)))
    self

/-- `leadSound` with the supplied default substituted directly for the
flag read. -/
def leadSoundQuerySubst (jp : String → Option JSVal) (self : Pattern)
    (defaultValue : JSVal) : Pattern :=
  withHapValue
    (fun v => .obj (leadSoundHapVal (resolveBundleSubst jp defaultValue) (objFields v)))
    self

/-! ## Boolean gate (`toggle`) -/

/-- One query of `basePattern.toggle(flagKey, defaultValue)`: truthy flag
delegates to the base pattern, falsy flag yields no events. -/
def toggleQuery (self : Pattern) (flagKey : String) (defaultValue : JSVal)
    (fl : Flags) (sp : Span) : List Hap :=
  let enabled := readOr fl flagKey defaultValue
  if truthy enabled then self sp else []

/-- `toggle` with the supplied default substituted directly for the flag
read. -/
def toggleQuerySubst (self : Pattern) (defaultValue : JSVal) (sp : Span) : List Hap :=
  if truthy defaultValue then self sp else []

/-! ## Tempo synchronizer (`setcpmFlag`) -/

/-- One listener closure registered by `setcpmFlag`: it captures the flag
key, the default and the divisor of the registering call. -/
structure TempoListener where
  key : String
  dflt : JSVal
  divisor : ℚ

/-- The world state touched by `setcpmFlag`: the flag store, whether the
provider client exists, whether the global `setcpm` primitive exists, the
`tempoListeners` registry keys, the listeners attached to the client's
change channel, and the last applied tempo. -/
structure World where
  flags : Flags
  ldPresent : Bool
  setcpmAvailable : Bool
  tempoKeys : List String
  changeListeners : List TempoListener
  cpm : Option JSVal

/-- `getValue` of `setcpmFlag`: resolve the flag with default, parse
strings via the external `parseFloat` (`pf`), divide by the divisor. -/
def computeCpm (pf : String → JSVal) (fl : Flags) (key : String) (dflt : JSVal)
    (divisor : ℚ) : JSVal :=
  let value := readOr fl key dflt
  let numValue :=
    match value with
    | .str s => pf s
    | v => v
  jsDivQ numValue divisor

/-- `computeCpm` with the supplied default substituted directly for the
flag read. -/
def computeCpmSubst (pf : String → JSVal) (dflt : JSVal) (divisor : ℚ) : JSVal :=
  let numValue :=
    match dflt with
    | .str s => pf s
    | v => v
  jsDivQ numValue divisor

/-- `applyTempo`: set the global tempo if the primitive exists, else only
warn. -/
def applyTempo (pf : String → JSVal) (key : String) (dflt : JSVal) (divisor : ℚ)
    (w : World) : World :=
  if w.setcpmAvailable then
    { w with cpm := some (computeCpm pf w.flags key dflt divisor) }
  else w

/-- `applyTempo` with the supplied default substituted directly for the
flag read. -/
def applyTempoSubst (pf : String → JSVal) (dflt : JSVal) (divisor : ℚ)
    (w : World) : World :=
  if w.setcpmAvailable then
    { w with cpm := some (computeCpmSubst pf dflt divisor) }
  else w

/-- The side effects of one `setcpmFlag(flagKey, defaultValue, divisor)`
call: apply the tempo immediately; if no listener is registered for the
key yet, record it in the registry and, when the client exists, attach it
to the change channel. -/
def setcpmFlagRun (pf : String → JSVal) (flagKey : String) (defaultValue : JSVal)
    (divisor : ℚ) (w : World) : World :=
  let w1 := applyTempo pf flagKey defaultValue divisor w
  if w1.tempoKeys.contains flagKey then w1
  else
    let w2 := { w1 with tempoKeys := flagKey :: w1.tempoKeys }
    if w2.ldPresent then
      { w2 with changeListeners := w2.changeListeners ++ [⟨flagKey, defaultValue, divisor⟩] }
    else w2

/-- `setcpmFlag` with the supplied default substituted directly for the
flag read of this invocation. -/
def setcpmFlagRunSubst (pf : String → JSVal) (flagKey : String) (defaultValue : JSVal)
    (divisor : ℚ) (w : World) : World :=
  let w1 := applyTempoSubst pf defaultValue divisor w
  if w1.tempoKeys.contains flagKey then w1
  else
    let w2 := { w1 with tempoKeys := flagKey :: w1.tempoKeys }
    if w2.ldPresent then
      { w2 with changeListeners := w2.changeListeners ++ [⟨flagKey, defaultValue, divisor⟩] }
    else w2

/-- The value `setcpmFlag` returns: `pure(0).withValue(() => ({}))`. -/
def setcpmFlagReturn : Pattern :=
  withHapValue (fun _ => .obj []) (purePat (.num 0))

/-- `n`-fold repetition of the same `setcpmFlag` invocation. -/
def iterateRun (pf : String → JSVal) (flagKey : String) (defaultValue : JSVal)
    (divisor : ℚ) : Nat → World → World
  | 0, w => w
  | n + 1, w => iterateRun pf flagKey defaultValue divisor n (setcpmFlagRun pf flagKey defaultValue divisor w)

/-- The change-channel listeners attached for a given key. -/
def listenersFor (key : String) (ls : List TempoListener) : List TempoListener :=
  ls.filter (fun l => l.key == key)

/-- A provider change notification: the `initLaunchDarkly` change handler
(registered first) merges the delivered current values into the store,
then every attached `setcpmFlag` listener whose key occurs in the delivery
(`if (settings[flagKey])`, a change record being truthy iff present)
re-runs its compute-and-apply step. -/
def notifyChange (pf : String → JSVal) (settings : Flags) (w : World) : World :=
  let w1 := { w with flags := mergeObj w.flags settings }
  w1.changeListeners.foldl
    (fun acc l =>
      if hasKeyB settings l.key then applyTempo pf l.key l.dflt l.divisor acc else acc)
    w1

/-! ## Cached variant selector (`getLeadArrangement`) -/

/-- A registry entry: a zero-argument pattern factory or a direct pattern
value (`typeof patternFactory === 'function'` distinguishes them). -/
inductive VariationEntry where
  | factory (f : Unit → Pattern)
  | patt (p : Pattern)

/-- The caller-supplied variation registry. -/
abbrev Variations := List (String × VariationEntry)

/-- Registry lookup (JS property access by a string key). -/
def lookupVariation : Variations → String → Option VariationEntry
  | [], _ => none
  | (k, e) :: rest, key => if k = key then some e else lookupVariation rest key

/-- `variations[variationKey] ?? variations[defaultVariation]`, also
reporting which registry name supplied the entry; a non-string resolved
key finds nothing and falls straight back to the default name. -/
def resolveVariation (vars : Variations) (dv : String) (vk : JSVal) :
    Option (String × VariationEntry) :=
  match vk with
  | .str s =>
    match lookupVariation vars s with
    | some e => some (s, e)
    | none => (lookupVariation vars dv).map (fun e => (dv, e))
  | _ => (lookupVariation vars dv).map (fun e => (dv, e))

/-- The closed-over cache of one `getLeadArrangement` call site. -/
structure LeadState where
  cachedVariationKey : Option JSVal
  cachedPattern : Option Pattern

/-- Fresh cache of a `getLeadArrangement` call site (both fields null). -/
def initialLeadState : LeadState := ⟨none, none⟩

/-- The cache test `variationKey !== cachedVariationKey` (negated): the
initial `null` cache never equals a resolved key. -/
def leadCacheHitB (st : LeadState) (vk : JSVal) : Bool :=
  match st.cachedVariationKey with
  | some c => jsEqB c vk
  | none => false

/-- Result of one query of the pattern returned by `getLeadArrangement`:
the produced events, the updated cache, how many factory invocations the
query performed, and which registry name's factory was invoked (if any). -/
structure LeadQueryResult where
  haps : List Hap
  state : LeadState
  factoryCalls : Nat
  invokedFactory : Option String

/-- One query of `getLeadArrangement(flagKey, defaultVariation,
variations)`: resolve the variation name, fall back to the default entry,
warn-and-silence when both are missing, rebuild the cached pattern (one
factory call) only when the resolved name differs from the cached one. -/
def getLeadArrangementQuery (flagKey : String) (defaultVariation : String)
    (variations : Variations) (fl : Flags) (st : LeadState) (sp : Span) :
    LeadQueryResult :=
  let variationKey := readOr fl flagKey (.str defaultVariation)
  match resolveVariation variations defaultVariation variationKey with
  | none => ⟨[], st, 0, none⟩
  | some (rk, entry) =>
    if leadCacheHitB st variationKey then
      ⟨queryOpt st.cachedPattern sp, st, 0, none⟩
    else
      match entry with
      | .factory f =>
        let p := f ()
        ⟨p sp, ⟨some variationKey, some p⟩, 1, some rk⟩
      | .patt p => ⟨p sp, ⟨some variationKey, some p⟩, 0, none⟩

/-- `getLeadArrangement` with the supplied default variation substituted
directly for the flag read. -/
def getLeadArrangementQuerySubst (defaultVariation : String)
    (variations : Variations) (st : LeadState) (sp : Span) : LeadQueryResult :=
  match resolveVariation variations defaultVariation (.str defaultVariation) with
  | none => ⟨[], st, 0, none⟩
  | some (rk, entry) =>
    if leadCacheHitB st (.str defaultVariation) then
      ⟨queryOpt st.cachedPattern sp, st, 0, none⟩
    else
      match entry with
      | .factory f =>
        let p := f ()
        ⟨p sp, ⟨some (.str defaultVariation), some p⟩, 1, some rk⟩
      | .patt p => ⟨p sp, ⟨some (.str defaultVariation), some p⟩, 0, none⟩

/-- Hypothesis shape for the gain claims: the `"gain"` field of an object
is absent (JS default `1` applies) or carries the number `g`. -/
def gainFieldIs (o : ObjFields) (g : ℚ) : Prop :=
  (getField o "gain" = none ∧ g = 1) ∨ getField o "gain" = some (.num g)

/-! ## Helper lemmas about the object-field operations -/

theorem getField_append_some {a : ObjFields} {k : String} {v : JSVal}
    (h : getField a k = some v) (b : ObjFields) : getField (a ++ b) k = some v := by
  induction a with
  | nil => simp [getField] at h
  | cons hd tl ih =>
    obtain ⟨k1, v1⟩ := hd
    by_cases hk : k1 = k
    · simpa [getField, hk] using h
    · rw [List.cons_append, getField, if_neg hk]
      rw [getField, if_neg hk] at h
      exact ih h

theorem getField_append_none {a : ObjFields} {k : String}
    (h : getField a k = none) (b : ObjFields) : getField (a ++ b) k = getField b k := by
  induction a with
  | nil => rfl
  | cons hd tl ih =>
    obtain ⟨k1, v1⟩ := hd
    by_cases hk : k1 = k
    · rw [getField, if_pos hk] at h
      exact absurd h (by simp)
    · rw [List.cons_append, getField, if_neg hk]
      rw [getField, if_neg hk] at h
      exact ih h

theorem getField_filter_keep {pr : String × JSVal → Bool} {k : String}
    (h : ∀ v, pr (k, v) = true) (o : ObjFields) :
    getField (o.filter pr) k = getField o k := by
  induction o with
  | nil => rfl
  | cons hd tl ih =>
    obtain ⟨k1, v1⟩ := hd
    rw [List.filter_cons]
    by_cases hk : k1 = k
    · subst hk
      rw [if_pos (h v1), getField, if_pos rfl, getField, if_pos rfl]
    · by_cases hpr : pr (k1, v1) = true
      · rw [if_pos hpr, getField, if_neg hk, getField, if_neg hk]; exact ih
      · rw [if_neg hpr, getField, if_neg hk]; exact ih

theorem getField_filter_drop {pr : String × JSVal → Bool} {k : String}
    (h : ∀ v, pr (k, v) = false) (o : ObjFields) :
    getField (o.filter pr) k = none := by
  induction o with
  | nil => rfl
  | cons hd tl ih =>
    obtain ⟨k1, v1⟩ := hd
    rw [List.filter_cons]
    by_cases hk : k1 = k
    · subst hk
      rw [if_neg (by simp [h v1])]
      exact ih
    · by_cases hpr : pr (k1, v1) = true
      · rw [if_pos hpr, getField, if_neg hk]; exact ih
      · rw [if_neg hpr]; exact ih

theorem getField_setField_same (o : ObjFields) (k : String) (v : JSVal) :
    getField (setField o k v) k = some v := by
  unfold setField
  rw [getField_append_none (getField_filter_drop (fun v1 => by simp) o)]
  simp [getField]

theorem getField_setField_ne {k' k : String} (h : k' ≠ k) (o : ObjFields) (v : JSVal) :
    getField (setField o k v) k' = getField o k' := by
  unfold setField
  have hkeep : getField (o.filter (fun p => !(p.1 == k))) k' = getField o k' :=
    getField_filter_keep (fun v1 => by simp [h]) o
  cases ha : getField o k' with
  | some x => rw [getField_append_some (hkeep.trans ha)]
  | none =>
    rw [getField_append_none (hkeep.trans ha), getField,
      if_neg (fun hh => h (hh.symm)), getField]

theorem getField_restFields {ks : List String} {k : String}
    (h : k ∈ ks) (o : ObjFields) :
    getField (restFields o ks) k = none :=
  getField_filter_drop (fun v => by simp [h]) o

theorem getField_mergeObj_right {b : ObjFields} {k : String} {x : JSVal}
    (h : getField b k = some x) (a : ObjFields) :
    getField (mergeObj a b) k = some x := by
  unfold mergeObj
  rw [getField_append_none (getField_filter_drop (fun v => by simp [hasKeyB, h]) a)]
  exact h

theorem getField_mergeObj_left {b : ObjFields} {k : String}
    (h : getField b k = none) (a : ObjFields) :
    getField (mergeObj a b) k = getField a k := by
  unfold mergeObj
  have hkeep : getField (a.filter (fun p => !(hasKeyB b p.1))) k = getField a k :=
    getField_filter_keep (fun v => by simp [hasKeyB, h]) a
  cases ha : getField a k with
  | some x => rw [getField_append_some (hkeep.trans ha)]
  | none => rw [getField_append_none (hkeep.trans ha)]; exact h

theorem readOr_of_absent {fl : Flags} {key : String} (h : readFlag fl key = none)
    (d : JSVal) : readOr fl key d = d := by
  unfold readOr
  rw [h]

@[simp] theorem applyTempo_flags (pf : String → JSVal) (k : String) (d : JSVal)
    (dv : ℚ) (w : World) : (applyTempo pf k d dv w).flags = w.flags := by
  unfold applyTempo; split <;> rfl

@[simp] theorem applyTempo_ldPresent (pf : String → JSVal) (k : String) (d : JSVal)
    (dv : ℚ) (w : World) : (applyTempo pf k d dv w).ldPresent = w.ldPresent := by
  unfold applyTempo; split <;> rfl

@[simp] theorem applyTempo_tempoKeys (pf : String → JSVal) (k : String) (d : JSVal)
    (dv : ℚ) (w : World) : (applyTempo pf k d dv w).tempoKeys = w.tempoKeys := by
  unfold applyTempo; split <;> rfl

@[simp] theorem applyTempo_changeListeners (pf : String → JSVal) (k : String) (d : JSVal)
    (dv : ℚ) (w : World) : (applyTempo pf k d dv w).changeListeners = w.changeListeners := by
  unfold applyTempo; split <;> rfl

@[simp] theorem applyTempo_setcpmAvailable (pf : String → JSVal) (k : String) (d : JSVal)
    (dv : ℚ) (w : World) : (applyTempo pf k d dv w).setcpmAvailable = w.setcpmAvailable := by
  unfold applyTempo; split <;> rfl

theorem setcpmFlagRun_of_registered (pf : String → JSVal) (flagKey : String)
    (d : JSVal) (dv : ℚ) (w : World) (h : w.tempoKeys.contains flagKey = true) :
    setcpmFlagRun pf flagKey d dv w = applyTempo pf flagKey d dv w := by
  unfold setcpmFlagRun
  simp only [applyTempo_tempoKeys, h]
  rfl

theorem iterateRun_preserved (pf : String → JSVal) (flagKey : String) (d : JSVal)
    (dv : ℚ) (n : Nat) (w : World) (h : w.tempoKeys.contains flagKey = true) :
    (iterateRun pf flagKey d dv n w).changeListeners = w.changeListeners ∧
    (iterateRun pf flagKey d dv n w).tempoKeys = w.tempoKeys := by
  induction n generalizing w with
  | zero => exact ⟨rfl, rfl⟩
  | succ n ih =>
    have h2 : (applyTempo pf flagKey d dv w).tempoKeys.contains flagKey = true := by
      rw [applyTempo_tempoKeys]; exact h
    have step : iterateRun pf flagKey d dv (n + 1) w =
        iterateRun pf flagKey d dv n (applyTempo pf flagKey d dv w) := by
      rw [iterateRun, setcpmFlagRun_of_registered pf flagKey d dv w h]
    rw [step]
    obtain ⟨e1, e2⟩ := ih (applyTempo pf flagKey d dv w) h2
    rw [e1, e2, applyTempo_changeListeners, applyTempo_tempoKeys]
    exact ⟨rfl, rfl⟩

/-- C9: if provider initialization fails, `initLaunchDarkly` rejects its
returned promise and the flag store is left exactly as it was before the
failure: the `failed` handler performs no store mutation at all, and the
only observable effect is the rejection. -/
theorem initFailure_rejects_and_preserves_store (fl : Flags) (err : String) :
    handleInitEvent fl .pending (.failed err) = (fl, .rejectedP err) := rfl

/-- C6: the boolean gate `toggle` is all-or-nothing per query window: a
truthy resolved flag value delegates the query to the base pattern and
returns its events unchanged, a falsy resolved value yields the empty
event list.  The flag is re-read on every query (the store is an explicit
argument of each query). -/
theorem toggle_all_or_nothing (self : Pattern) (flagKey : String) (defaultValue : JSVal)
    (fl : Flags) (sp : Span) :
    (truthy (readOr fl flagKey defaultValue) = true →
      toggleQuery self flagKey defaultValue fl sp = self sp) ∧
    (truthy (readOr fl flagKey defaultValue) = false →
      toggleQuery self flagKey defaultValue fl sp = []) := by
  constructor <;> intro h <;> simp [toggleQuery, h]

/-- Witness for C6: with the key absent and default `true` the base
pattern's events pass through on the window from 0 to 1; with the key
explicitly `false` the same query yields no events. -/
theorem toggle_all_or_nothing_witness :
    toggleQuery (purePat (.num 7)) "drums-enabled" (.bool true) [] ⟨0, 1⟩ =
      purePat (.num 7) ⟨0, 1⟩ ∧
    toggleQuery (purePat (.num 7)) "drums-enabled" (.bool true)
      [("drums-enabled", .bool false)] ⟨0, 1⟩ = [] :=
  ⟨(toggle_all_or_nothing (purePat (.num 7)) "drums-enabled" (.bool true) [] ⟨0, 1⟩).1 rfl,
   (toggle_all_or_nothing (purePat (.num 7)) "drums-enabled" (.bool true)
      [("drums-enabled", .bool false)] ⟨0, 1⟩).2 rfl⟩

/-- C4: `polySpeed` output shape.  A non-empty array of speeds yields the
stack (simultaneous union, in array order) of the base pattern sped by
each element; the empty array passes the base pattern through unchanged;
a single number applies that speed factor with no stacking. -/
theorem polySpeed_shape (self : Pattern) (flagKey : String) (defaultValue : JSVal)
    (fl : Flags) (sp : Span) :
    (∀ qs : List ℚ, qs ≠ [] →
      readOr fl flagKey defaultValue = .arr (qs.map JSVal.num) →
      polySpeedQuery self flagKey defaultValue fl sp =
        stackPats (qs.map (fun q => fastPat q self)) sp) ∧
    (readOr fl flagKey defaultValue = .arr [] →
      polySpeedQuery self flagKey defaultValue fl sp = self sp) ∧
    (∀ q : ℚ, readOr fl flagKey defaultValue = .num q →
      polySpeedQuery self flagKey defaultValue fl sp = fastPat q self sp) := by
  refine ⟨?_, ?_, ?_⟩
  · intro qs hne h
    cases qs with
    | nil => exact absurd rfl hne
    | cons a tl =>
      simp only [polySpeedQuery, h, List.map_cons, List.map_map]
      rfl
  · intro h
    simp [polySpeedQuery, h]
  · intro q h
    simp [polySpeedQuery, h, jsToQ]

/-- Witness for C4: concrete speeds `[16, 4]`, `[]` and `16`, key
`'melodySpeed'`, window from 0 to 1. -/
theorem polySpeed_shape_witness :
    polySpeedQuery (purePat (.num 7)) "melodySpeed" (.num 1)
        [("melodySpeed", .arr (([16, 4] : List ℚ).map JSVal.num))] ⟨0, 1⟩ =
      stackPats (([16, 4] : List ℚ).map (fun q => fastPat q (purePat (.num 7)))) ⟨0, 1⟩ ∧
    polySpeedQuery (purePat (.num 7)) "melodySpeed" (.arr []) [] ⟨0, 1⟩ =
      purePat (.num 7) ⟨0, 1⟩ ∧
    polySpeedQuery (purePat (.num 7)) "melodySpeed" (.num 16) [] ⟨0, 1⟩ =
      fastPat 16 (purePat (.num 7)) ⟨0, 1⟩ :=
  ⟨(polySpeed_shape (purePat (.num 7)) "melodySpeed" (.num 1)
      [("melodySpeed", .arr (([16, 4] : List ℚ).map JSVal.num))] ⟨0, 1⟩).1
      [16, 4] (by simp) rfl,
   (polySpeed_shape (purePat (.num 7)) "melodySpeed" (.arr []) [] ⟨0, 1⟩).2.1 rfl,
   (polySpeed_shape (purePat (.num 7)) "melodySpeed" (.num 16) [] ⟨0, 1⟩).2.2 16 rfl⟩

/-- C7: in the scalar bridge, a failing mini-notation parse of a changed
string logs, answers that query with the raw string as a constant-valued
pattern (`pure(value)`), and leaves the call-site cache (last-seen string
and last-parsed pattern) exactly as it was. -/
theorem flag_parse_failure_no_cache_poison (mp : String → Option Pattern)
    (key : String) (dflt : JSVal) (fl : Flags) (st : FlagBridgeState) (sp : Span)
    (s : String) (hv : readOr fl key dflt = .str s) (hm : hasMiniNotationStr s = true)
    (hc : flagCacheHitB st s = false) (hp : mp s = none) :
    flagQuery mp key dflt fl st sp = (purePat (.str s) sp, st) := by
  simp only [flagQuery, hv, hm, hc, hp]
  rfl

/-- Witness for C7: the string `'<0 2'` contains mini-notation markers, a
parser that rejects everything fails on it, and the fresh (empty) cache is
returned unchanged while the query falls back to the raw string as a
constant pattern. -/
theorem flag_parse_failure_no_cache_poison_witness :
    flagQuery (fun _ => none) "scale" (.null) [("scale", .str "<0 2")]
        initialFlagBridgeState ⟨0, 1⟩ =
      (purePat (.str "<0 2") ⟨0, 1⟩, initialFlagBridgeState) :=
  flag_parse_failure_no_cache_poison (fun _ => none) "scale" (.null)
    [("scale", .str "<0 2")] initialFlagBridgeState ⟨0, 1⟩ "<0 2" rfl rfl rfl rfl

theorem gain_product {v o : ObjFields} {gv gb : ℚ}
    (hv : gainFieldIs v gv) (hb : gainFieldIs o gb) :
    jsMul (nullishField (getField v "gain") (.num 1))
      (destrDefault (getField o "gain") (.num 1)) = .num (gv * gb) := by
  rcases hv with ⟨h1, rfl⟩ | h1 <;> rcases hb with ⟨h2, rfl⟩ | h2 <;>
    simp [h1, h2, nullishField, destrDefault, jsMul, jsAsNum]

theorem drumKit_gain_eq (pv : JSVal) (v : ObjFields) :
    getField (drumKitHapVal pv v) "gain" =
      some (jsMul (nullishField (getField v "gain") (.num 1))
        (destrDefault (getField (objFields pv) "gain") (.num 1))) := by
  simp only [drumKitHapVal]
  rw [getField_setField_same]

theorem bassSound_gain_eq (pv : JSVal) (v : ObjFields) :
    getField (bassSoundHapVal pv v) "gain" =
      some (jsMul (nullishField (getField v "gain") (.num 1))
        (destrDefault (getField (objFields pv) "gain") (.num 1))) := by
  simp only [bassSoundHapVal]
  split
  · rw [getField_setField_ne (by decide), getField_setField_same]
  · rw [getField_setField_same]

theorem leadSound_gain_eq (pv : JSVal) (v : ObjFields) :
    getField (leadSoundHapVal pv v) "gain" =
      some (jsMul (nullishField (getField v "gain") (.num 1))
        (destrDefault (getField (objFields pv) "gain") (.num 1))) := by
  simp only [leadSoundHapVal]
  split <;> split <;>
    first
      | rw [getField_setField_ne (by decide), getField_setField_ne (by decide),
          getField_setField_same]
      | rw [getField_setField_ne (by decide), getField_setField_same]
      | rw [getField_setField_same]

/-- C5: in all three parameter-bundle merges the resulting `gain` of every
processed event is the product of the gain the event already carried
(default `1` when absent) and the bundle's gain (default `1` when absent);
the existing gain is never replaced outright. -/
theorem bundle_gain_multiplicative (pv : JSVal) (v : ObjFields) (gv gb : ℚ)
    (hv : gainFieldIs v gv) (hb : gainFieldIs (objFields pv) gb) :
    getField (drumKitHapVal pv v) "gain" = some (.num (gv * gb)) ∧
    getField (bassSoundHapVal pv v) "gain" = some (.num (gv * gb)) ∧
    getField (leadSoundHapVal pv v) "gain" = some (.num (gv * gb)) := by
  rw [drumKit_gain_eq, bassSound_gain_eq, leadSound_gain_eq, gain_product hv hb]
  exact ⟨rfl, rfl, rfl⟩

/-- Witness for C5: an event with no gain and a bundle gain of 6/5 (the
spec's `1.2`) gives `1 * 6/5`; an event gain of 2 with bundle gain 3/2
(the spec's `1.5`) gives `2 * 3/2` (the spec's `3.0`), in all three
merges. -/
theorem bundle_gain_multiplicative_witness :
    (getField (drumKitHapVal (.obj [("gain", .num (6/5))]) []) "gain" =
        some (.num ((1 : ℚ) * (6/5))) ∧
      getField (bassSoundHapVal (.obj [("gain", .num (6/5))]) []) "gain" =
        some (.num ((1 : ℚ) * (6/5))) ∧
      getField (leadSoundHapVal (.obj [("gain", .num (6/5))]) []) "gain" =
        some (.num ((1 : ℚ) * (6/5)))) ∧
    (getField (drumKitHapVal (.obj [("gain", .num (3/2))]) [("gain", .num 2)]) "gain" =
        some (.num ((2 : ℚ) * (3/2))) ∧
      getField (bassSoundHapVal (.obj [("gain", .num (3/2))]) [("gain", .num 2)]) "gain" =
        some (.num ((2 : ℚ) * (3/2))) ∧
      getField (leadSoundHapVal (.obj [("gain", .num (3/2))]) [("gain", .num 2)]) "gain" =
        some (.num ((2 : ℚ) * (3/2)))) :=
  ⟨bundle_gain_multiplicative (.obj [("gain", .num (6/5))]) [] 1 (6/5)
      (Or.inl ⟨rfl, rfl⟩) (Or.inr rfl),
   bundle_gain_multiplicative (.obj [("gain", .num (3/2))]) [("gain", .num 2)] 2 (3/2)
      (Or.inr rfl) (Or.inr rfl)⟩

theorem bassSound_s_eq (pv : JSVal) (v : ObjFields) :
    getField (bassSoundHapVal pv v) "s" =
      some (destrDefault (getField (objFields pv) "sound") (.str "gm_synth_bass_2")) := by
  simp only [bassSoundHapVal]
  split
  · rw [getField_setField_ne (by decide), getField_setField_ne (by decide),
      getField_setField_same]
  · rw [getField_setField_ne (by decide), getField_setField_same]

theorem leadSound_s_eq (pv : JSVal) (v : ObjFields) :
    getField (leadSoundHapVal pv v) "s" =
      some (destrDefault (getField (objFields pv) "sound") (.str "sawtooth")) := by
  simp only [leadSoundHapVal]
  split <;> split <;>
    first
      | rw [getField_setField_ne (by decide), getField_setField_ne (by decide),
          getField_setField_ne (by decide), getField_setField_same]
      | rw [getField_setField_ne (by decide), getField_setField_ne (by decide),
          getField_setField_same]
      | rw [getField_setField_ne (by decide), getField_setField_same]

theorem bassSound_lpf_frame (pv : JSVal) (v : ObjFields)
    (h : getField (objFields pv) "lpf" = none) :
    getField (bassSoundHapVal pv v) "lpf" = getField v "lpf" := by
  simp only [bassSoundHapVal, h]
  rw [getField_setField_ne (by decide), getField_setField_ne (by decide),
    getField_mergeObj_left (getField_restFields (by simp) (objFields pv))]

theorem leadSound_lpf_frame (pv : JSVal) (v : ObjFields)
    (h : getField (objFields pv) "lpf" = none) :
    getField (leadSoundHapVal pv v) "lpf" = getField v "lpf" := by
  simp only [leadSoundHapVal, h]
  split
  · rw [getField_setField_ne (by decide), getField_setField_ne (by decide),
      getField_setField_ne (by decide),
      getField_mergeObj_left (getField_restFields (by simp) (objFields pv))]
  · rw [getField_setField_ne (by decide), getField_setField_ne (by decide),
      getField_mergeObj_left (getField_restFields (by simp) (objFields pv))]

theorem leadSound_lpq_frame (pv : JSVal) (v : ObjFields)
    (h : getField (objFields pv) "lpq" = none) :
    getField (leadSoundHapVal pv v) "lpq" = getField v "lpq" := by
  simp only [leadSoundHapVal, h]
  split
  · rw [getField_setField_ne (by decide), getField_setField_ne (by decide),
      getField_setField_ne (by decide),
      getField_mergeObj_left (getField_restFields (by simp) (objFields pv))]
  · rw [getField_setField_ne (by decide), getField_setField_ne (by decide),
      getField_mergeObj_left (getField_restFields (by simp) (objFields pv))]

/-- C10: for every event, `bassSound` and `leadSound` always overwrite the
payload's `s` field — with the bundle's `sound` when present, otherwise
with the hard-coded default (`'gm_synth_bass_2'` / `'sawtooth'`) — while
`lpf` (and, for `leadSound`, `lpq`) are left unchanged whenever the
resolved bundle omits them. -/
theorem bundle_s_forced_filters_framed (pv : JSVal) (v : ObjFields) :
    getField (bassSoundHapVal pv v) "s" =
      some (destrDefault (getField (objFields pv) "sound") (.str "gm_synth_bass_2")) ∧
    getField (leadSoundHapVal pv v) "s" =
      some (destrDefault (getField (objFields pv) "sound") (.str "sawtooth")) ∧
    (getField (objFields pv) "lpf" = none →
      getField (bassSoundHapVal pv v) "lpf" = getField v "lpf") ∧
    (getField (objFields pv) "lpf" = none →
      getField (leadSoundHapVal pv v) "lpf" = getField v "lpf") ∧
    (getField (objFields pv) "lpq" = none →
      getField (leadSoundHapVal pv v) "lpq" = getField v "lpq") :=
  ⟨bassSound_s_eq pv v, leadSound_s_eq pv v, bassSound_lpf_frame pv v,
   leadSound_lpf_frame pv v, leadSound_lpq_frame pv v⟩

/-- Witness for C10: a bundle that omits `sound`, `lpf` and `lpq` still
forces `s` to each hard-coded default, and leaves the payload's existing
`lpf` (and absent `lpq`) untouched. -/
theorem bundle_s_forced_filters_framed_witness :
    getField (bassSoundHapVal (.obj [("gain", .num 1)])
        [("lpf", .num 800), ("s", .str "piano")]) "s" =
      some (destrDefault (getField (objFields (.obj [("gain", .num 1)])) "sound")
        (.str "gm_synth_bass_2")) ∧
    getField (leadSoundHapVal (.obj [("gain", .num 1)])
        [("lpf", .num 800), ("s", .str "piano")]) "s" =
      some (destrDefault (getField (objFields (.obj [("gain", .num 1)])) "sound")
        (.str "sawtooth")) ∧
    getField (bassSoundHapVal (.obj [("gain", .num 1)])
        [("lpf", .num 800), ("s", .str "piano")]) "lpf" =
      getField [("lpf", .num 800), ("s", .str "piano")] "lpf" ∧
    getField (leadSoundHapVal (.obj [("gain", .num 1)])
        [("lpf", .num 800), ("s", .str "piano")]) "lpf" =
      getField [("lpf", .num 800), ("s", .str "piano")] "lpf" ∧
    getField (leadSoundHapVal (.obj [("gain", .num 1)])
        [("lpf", .num 800), ("s", .str "piano")]) "lpq" =
      getField [("lpf", .num 800), ("s", .str "piano")] "lpq" := by
  obtain ⟨h1, h2, h3, h4, h5⟩ :=
    bundle_s_forced_filters_framed (.obj [("gain", .num 1)])
      [("lpf", .num 800), ("s", .str "piano")]
  exact ⟨h1, h2, h3 rfl, h4 rfl, h5 rfl⟩

/-- C2: the cached variant selector is a two-state machine.  (a) When the
resolved variation name equals the cached one, the query performs zero
factory invocations, reuses the cached pattern instance, and leaves the
cache unchanged.  (b) When the resolved name differs from the cached one
(including the fresh, unresolved cache) and resolves to a factory, the
query invokes that factory exactly once and replaces the cache.  (c) Only
the most recent selection is retained: selecting `'techno'`, then
`'epiano'`, then `'techno'` again invokes the `'techno'` factory a second
time. -/
theorem getLeadArrangement_two_state_cache :
    (∀ (flagKey dv : String) (variations : Variations) (fl : Flags) (st : LeadState)
       (sp : Span) (p : Pattern) (rke : String × VariationEntry),
      resolveVariation variations dv (readOr fl flagKey (.str dv)) = some rke →
      leadCacheHitB st (readOr fl flagKey (.str dv)) = true →
      st.cachedPattern = some p →
      getLeadArrangementQuery flagKey dv variations fl st sp = ⟨p sp, st, 0, none⟩) ∧
    (∀ (flagKey dv : String) (variations : Variations) (fl : Flags) (st : LeadState)
       (sp : Span) (rk : String) (f : Unit → Pattern),
      resolveVariation variations dv (readOr fl flagKey (.str dv)) =
        some (rk, .factory f) →
      leadCacheHitB st (readOr fl flagKey (.str dv)) = false →
      getLeadArrangementQuery flagKey dv variations fl st sp =
        ⟨(f ()) sp, ⟨some (readOr fl flagKey (.str dv)), some (f ())⟩, 1, some rk⟩) ∧
    (∀ (fA fB : Unit → Pattern) (sp : Span),
      (getLeadArrangementQuery "leadArrangement" "original"
          [("techno", .factory fA), ("epiano", .factory fB)]
          [("leadArrangement", .str "techno")] initialLeadState sp).factoryCalls = 1 ∧
      (getLeadArrangementQuery "leadArrangement" "original"
          [("techno", .factory fA), ("epiano", .factory fB)]
          [("leadArrangement", .str "techno")] initialLeadState sp).invokedFactory =
        some "techno" ∧
      (getLeadArrangementQuery "leadArrangement" "original"
          [("techno", .factory fA), ("epiano", .factory fB)]
          [("leadArrangement", .str "epiano")]
          (getLeadArrangementQuery "leadArrangement" "original"
            [("techno", .factory fA), ("epiano", .factory fB)]
            [("leadArrangement", .str "techno")] initialLeadState sp).state
          sp).invokedFactory = some "epiano" ∧
      (getLeadArrangementQuery "leadArrangement" "original"
          [("techno", .factory fA), ("epiano", .factory fB)]
          [("leadArrangement", .str "techno")]
          (getLeadArrangementQuery "leadArrangement" "original"
            [("techno", .factory fA), ("epiano", .factory fB)]
            [("leadArrangement", .str "epiano")]
            (getLeadArrangementQuery "leadArrangement" "original"
              [("techno", .factory fA), ("epiano", .factory fB)]
              [("leadArrangement", .str "techno")] initialLeadState sp).state
            sp).state
          sp).invokedFactory = some "techno") := by
  refine ⟨?_, ?_, ?_⟩
  · intro flagKey dv variations fl st sp p rke hres hhit hpat
    simp only [getLeadArrangementQuery, hres, hhit, queryOpt, hpat]
    rfl
  · intro flagKey dv variations fl st sp rk f hres hmiss
    simp only [getLeadArrangementQuery, hres, hmiss]
    rfl
  · intro fA fB sp
    refine ⟨?_, ?_, ?_, ?_⟩ <;>
      simp [getLeadArrangementQuery, resolveVariation, lookupVariation, readOr,
        readFlag, getField, leadCacheHitB, jsEqB, initialLeadState, queryOpt]

/-- Witness for C2: part (a) applied to a cache already holding
`'techno'`, part (b) applied to the fresh cache, part (c) applied to two
concrete factories. -/
theorem getLeadArrangement_two_state_cache_witness :
    getLeadArrangementQuery "leadArrangement" "original"
        [("techno", .factory (fun _ => purePat (.num 1)))]
        [("leadArrangement", .str "techno")]
        ⟨some (.str "techno"), some (purePat (.num 2))⟩ ⟨0, 1⟩ =
      ⟨purePat (.num 2) ⟨0, 1⟩, ⟨some (.str "techno"), some (purePat (.num 2))⟩, 0, none⟩ ∧
    getLeadArrangementQuery "leadArrangement" "original"
        [("techno", .factory (fun _ => purePat (.num 1)))]
        [("leadArrangement", .str "techno")] initialLeadState ⟨0, 1⟩ =
      ⟨purePat (.num 1) ⟨0, 1⟩, ⟨some (.str "techno"), some (purePat (.num 1))⟩, 1,
        some "techno"⟩ ∧
    (getLeadArrangementQuery "leadArrangement" "original"
        [("techno", .factory (fun _ => purePat (.num 1))),
         ("epiano", .factory (fun _ => purePat (.num 2)))]
        [("leadArrangement", .str "techno")]
        (getLeadArrangementQuery "leadArrangement" "original"
          [("techno", .factory (fun _ => purePat (.num 1))),
           ("epiano", .factory (fun _ => purePat (.num 2)))]
          [("leadArrangement", .str "epiano")]
          (getLeadArrangementQuery "leadArrangement" "original"
            [("techno", .factory (fun _ => purePat (.num 1))),
             ("epiano", .factory (fun _ => purePat (.num 2)))]
            [("leadArrangement", .str "techno")] initialLeadState ⟨0, 1⟩).state
          ⟨0, 1⟩).state
        ⟨0, 1⟩).invokedFactory = some "techno" :=
  ⟨getLeadArrangement_two_state_cache.1 "leadArrangement" "original"
      [("techno", .factory (fun _ => purePat (.num 1)))]
      [("leadArrangement", .str "techno")]
      ⟨some (.str "techno"), some (purePat (.num 2))⟩ ⟨0, 1⟩ (purePat (.num 2))
      ("techno", .factory (fun _ => purePat (.num 1))) rfl
      (by simp [leadCacheHitB, jsEqB, readOr, readFlag, getField]) rfl,
   getLeadArrangement_two_state_cache.2.1 "leadArrangement" "original"
      [("techno", .factory (fun _ => purePat (.num 1)))]
      [("leadArrangement", .str "techno")] initialLeadState ⟨0, 1⟩ "techno"
      (fun _ => purePat (.num 1)) rfl rfl,
   (getLeadArrangement_two_state_cache.2.2 (fun _ => purePat (.num 1))
      (fun _ => purePat (.num 2)) ⟨0, 1⟩).2.2.2⟩

/-- C8: (a) starting from a world with no tempo listener for the key and
the provider client present, any positive number of identical `setcpmFlag`
invocations leaves exactly one change listener attached for that key; (b)
when that single listener is attached, every provider change notification
that contains the key re-runs the compute-and-apply tempo step (on the
store already updated by the init change handler). -/
theorem setcpmFlag_listener_registration :
    (∀ (pf : String → JSVal) (flagKey : String) (d : JSVal) (dv : ℚ)
       (w : World) (n : Nat),
      w.tempoKeys.contains flagKey = false →
      listenersFor flagKey w.changeListeners = [] →
      w.ldPresent = true →
      listenersFor flagKey
          ((iterateRun pf flagKey d dv (n + 1) w).changeListeners) =
        [⟨flagKey, d, dv⟩]) ∧
    (∀ (pf : String → JSVal) (settings : Flags) (w : World) (flagKey : String)
       (d : JSVal) (dv : ℚ),
      w.changeListeners = [⟨flagKey, d, dv⟩] →
      hasKeyB settings flagKey = true →
      notifyChange pf settings w =
        applyTempo pf flagKey d dv { w with flags := mergeObj w.flags settings }) := by
  constructor
  · intro pf flagKey d dv w n h1 h2 h3
    have hw3 : setcpmFlagRun pf flagKey d dv w =
        { applyTempo pf flagKey d dv w with
            tempoKeys := flagKey :: (applyTempo pf flagKey d dv w).tempoKeys,
            changeListeners :=
              (applyTempo pf flagKey d dv w).changeListeners ++ [⟨flagKey, d, dv⟩] } := by
      unfold setcpmFlagRun
      simp only [applyTempo_tempoKeys, applyTempo_ldPresent, h1, h3]
      rfl
    have hstep : iterateRun pf flagKey d dv (n + 1) w =
        iterateRun pf flagKey d dv n (setcpmFlagRun pf flagKey d dv w) := rfl
    rw [hstep, hw3]
    have hcon : ({ applyTempo pf flagKey d dv w with
        tempoKeys := flagKey :: (applyTempo pf flagKey d dv w).tempoKeys,
        changeListeners :=
          (applyTempo pf flagKey d dv w).changeListeners ++
            [⟨flagKey, d, dv⟩] } : World).tempoKeys.contains flagKey = true := by
      simp
    obtain ⟨e1, _⟩ := iterateRun_preserved pf flagKey d dv n _ hcon
    rw [e1]
    simp only [applyTempo_changeListeners, listenersFor, List.filter_append]
    rw [show (listenersFor flagKey w.changeListeners) = List.filter
        (fun l => l.key == flagKey) w.changeListeners from rfl] at h2
    rw [h2]
    simp
  · intro pf settings w flagKey d dv h1 h2
    unfold notifyChange
    rw [h1]
    simp only [List.foldl_cons, List.foldl_nil, h2, if_true]

/-- Witness for C8: two identical invocations of
`setcpmFlag('t', 110, 4)` on a fresh world attach exactly one change
listener for key `'t'`; a notification delivering `'t'` re-runs the
compute-and-apply step on the merged store. -/
theorem setcpmFlag_listener_registration_witness :
    listenersFor "t"
        ((iterateRun (fun _ => JSVal.nan) "t" (.num 110) 4 2
          ⟨[], true, true, [], [], none⟩).changeListeners) =
      [⟨"t", .num 110, 4⟩] ∧
    notifyChange (fun _ => JSVal.nan) [("t", .num 120)]
        ⟨[], true, true, ["t"], [⟨"t", .num 110, 4⟩], none⟩ =
      applyTempo (fun _ => JSVal.nan) "t" (.num 110) 4
        { (⟨[], true, true, ["t"], [⟨"t", .num 110, 4⟩], none⟩ : World) with
            flags := mergeObj [] [("t", .num 120)] } :=
  ⟨setcpmFlag_listener_registration.1 (fun _ => JSVal.nan) "t" (.num 110) 4
      ⟨[], true, true, [], [], none⟩ 1 rfl rfl rfl,
   setcpmFlag_listener_registration.2 (fun _ => JSVal.nan) [("t", .num 120)]
      ⟨[], true, true, ["t"], [⟨"t", .num 110, 4⟩], none⟩ "t" (.num 110) 4 rfl rfl⟩

/-- C3: for every key absent from the flag store, each bridge operation's
output (including the updated cache state / world where applicable) equals
the output of the variant in which the supplied default value is
substituted directly in place of the flag read — for the scalar bridge,
the layering transform, the three bundle merges, the gate, the variant
selector and the tempo synchronizer. -/
theorem absence_default_equivalence (mp : String → Option Pattern)
    (jp : String → Option JSVal) (pf : String → JSVal) (self : Pattern)
    (fl : Flags) (stF : FlagBridgeState) (stL : LeadState)
    (variations : Variations) (dv : String) (divisor : ℚ) (w : World)
    (key : String) (d : JSVal) (sp : Span)
    (hfl : readFlag fl key = none) (hw : readFlag w.flags key = none) :
    flagQuery mp key d fl stF sp = flagQuerySubst mp d stF sp ∧
    polySpeedQuery self key d fl sp = polySpeedQuerySubst self d sp ∧
    drumKitQuery jp self key d fl sp = drumKitQuerySubst jp self d sp ∧
    bassSoundQuery jp self key d fl sp = bassSoundQuerySubst jp self d sp ∧
    leadSoundQuery jp self key d fl sp = leadSoundQuerySubst jp self d sp ∧
    toggleQuery self key d fl sp = toggleQuerySubst self d sp ∧
    getLeadArrangementQuery key dv variations fl stL sp =
      getLeadArrangementQuerySubst dv variations stL sp ∧
    setcpmFlagRun pf key d divisor w = setcpmFlagRunSubst pf key d divisor w := by
  have h : ∀ d' : JSVal, readOr fl key d' = d' := fun d' => readOr_of_absent hfl d'
  have hw' : ∀ d' : JSVal, readOr w.flags key d' = d' := fun d' => readOr_of_absent hw d'
  have hrb : resolveBundle jp fl key d = resolveBundleSubst jp d := by
    unfold resolveBundle resolveBundleSubst
    rw [h]
  have hcc : computeCpm pf w.flags key d divisor = computeCpmSubst pf d divisor := by
    unfold computeCpm computeCpmSubst
    rw [hw']
  have hat : applyTempo pf key d divisor w = applyTempoSubst pf d divisor w := by
    unfold applyTempo applyTempoSubst
    rw [hcc]
  refine ⟨?_, ?_, ?_, ?_, ?_, ?_, ?_, ?_⟩
  · simp only [flagQuery, flagQuerySubst, h]
  · simp only [polySpeedQuery, polySpeedQuerySubst, h]
  · simp only [drumKitQuery, drumKitQuerySubst, hrb]
  · simp only [bassSoundQuery, bassSoundQuerySubst, hrb]
  · simp only [leadSoundQuery, leadSoundQuerySubst, hrb]
  · simp only [toggleQuery, toggleQuerySubst, h]
  · simp only [getLeadArrangementQuery, getLeadArrangementQuerySubst, h]
  · simp only [setcpmFlagRun, setcpmFlagRunSubst, hat]

/-- Witness for C3: the empty store lacks key `'k'`; every bridge output
equals its direct-substitution counterpart at a concrete instantiation. -/
theorem absence_default_equivalence_witness :
    flagQuery (fun _ => none) "k" (.bool true) [] initialFlagBridgeState ⟨0, 1⟩ =
      flagQuerySubst (fun _ => none) (.bool true) initialFlagBridgeState ⟨0, 1⟩ ∧
    polySpeedQuery (purePat (.num 7)) "k" (.bool true) [] ⟨0, 1⟩ =
      polySpeedQuerySubst (purePat (.num 7)) (.bool true) ⟨0, 1⟩ ∧
    drumKitQuery (fun _ => none) (purePat (.num 7)) "k" (.bool true) [] ⟨0, 1⟩ =
      drumKitQuerySubst (fun _ => none) (purePat (.num 7)) (.bool true) ⟨0, 1⟩ ∧
    bassSoundQuery (fun _ => none) (purePat (.num 7)) "k" (.bool true) [] ⟨0, 1⟩ =
      bassSoundQuerySubst (fun _ => none) (purePat (.num 7)) (.bool true) ⟨0, 1⟩ ∧
    leadSoundQuery (fun _ => none) (purePat (.num 7)) "k" (.bool true) [] ⟨0, 1⟩ =
      leadSoundQuerySubst (fun _ => none) (purePat (.num 7)) (.bool true) ⟨0, 1⟩ ∧
    toggleQuery (purePat (.num 7)) "k" (.bool true) [] ⟨0, 1⟩ =
      toggleQuerySubst (purePat (.num 7)) (.bool true) ⟨0, 1⟩ ∧
    getLeadArrangementQuery "k" "original" [] [] initialLeadState ⟨0, 1⟩ =
      getLeadArrangementQuerySubst "original" [] initialLeadState ⟨0, 1⟩ ∧
    setcpmFlagRun (fun _ => JSVal.nan) "k" (.bool true) 1
        ⟨[], true, true, [], [], none⟩ =
      setcpmFlagRunSubst (fun _ => JSVal.nan) "k" (.bool true) 1
        ⟨[], true, true, [], [], none⟩ :=
  absence_default_equivalence (fun _ => none) (fun _ => none) (fun _ => JSVal.nan)
    (purePat (.num 7)) [] initialFlagBridgeState initialLeadState [] "original" 1
    ⟨[], true, true, [], [], none⟩ "k" (.bool true) ⟨0, 1⟩ rfl rfl

theorem setcpmFlagReturn_unit_window :
    setcpmFlagReturn ⟨0, 1⟩ = [⟨some ⟨0, 1⟩, ⟨0, 1⟩, .obj []⟩] := by
  norm_num [setcpmFlagReturn, withHapValue, purePat, spanCycles, spanCyclesAux]

/-- C1 counterexample: the pattern returned by `setcpmFlag`
(`pure(0).withValue(() => ({}))`) is not event-free — on the query window
from 0 to 1 it produces a (blank-payload) event, so it is not equivalent
to silence in the sense of contributing no events. -/
theorem setcpmFlagReturn_not_eventless : setcpmFlagReturn ⟨0, 1⟩ ≠ [] := by
  rw [setcpmFlagReturn_unit_window]
  simp

/-- C1 (amended): the pattern returned by `setcpmFlag` composes wherever a
pattern is expected and is audibly silent, but not event-free: on every
query window each event it contributes carries the empty object as
payload (no sound parameters), one event per cycle rather than none. -/
theorem setcpmFlagReturn_blank_payload (sp : Span) (h : Hap)
    (hm : h ∈ setcpmFlagReturn sp) : h.value = .obj [] := by
  simp only [setcpmFlagReturn, withHapValue, List.mem_map] at hm
  obtain ⟨a, _, rfl⟩ := hm
  rfl

/-- Witness for C1 (amended): the single event of the window from 0 to 1
carries the empty-object payload. -/
theorem setcpmFlagReturn_blank_payload_witness :
    (⟨some ⟨0, 1⟩, ⟨0, 1⟩, .obj []⟩ : Hap) ∈ setcpmFlagReturn ⟨0, 1⟩ ∧
    (⟨some ⟨0, 1⟩, ⟨0, 1⟩, .obj []⟩ : Hap).value = .obj [] :=
  ⟨by rw [setcpmFlagReturn_unit_window]; exact List.mem_singleton.mpr rfl,
   setcpmFlagReturn_blank_payload ⟨0, 1⟩ ⟨some ⟨0, 1⟩, ⟨0, 1⟩, .obj []⟩
     (by rw [setcpmFlagReturn_unit_window]; exact List.mem_singleton.mpr rfl)⟩
